import Mathlib

/-!
# Register controller of the FPGA DMA driver

A shallow embedding of `sw/src/fpga/FpgaController.cpp`.

* Machine integers are natural numbers; every C++ conversion to `uint8_t`,
  `uint32_t` or `uint64_t` is an explicit `% 2 ^ w`.
* The memory-mapped device is a state machine `Device σ`: a volatile store, a
  volatile load (which may change the device state) and the passing of one
  second of host sleep.
* Every call of a register primitive appends one `Access` to a log, so that the
  order and the number of register accesses of an operation can be stated.
* The `do { ... } while (lower == 0)` loop of `runDmaBenchmark` is run with a
  bound on the number of iterations; `Outcome.running` is the result of a run
  that is still inside the loop when the bound is reached.
-/

namespace FpgaController

/-! ## Data model -/

/-- Register identifiers `ctrlAddr` named in FpgaController.cpp. -/
inductive ctrlAddr where
  | TLB
  | DMA_BENCH
  | DMA_BENCH_CYCLES
  | IPADDR
  | BOARDNUM
  | DMA_READS
  | DMA_WRITES
  | DEBUG
  | DMA_DEBUG
  deriving DecidableEq, Repr

/-- Benchmark direction `memoryOp`. -/
inductive memoryOp where
  | READ
  | WRITE
  deriving DecidableEq, Repr

/-- What FpgaController.cpp takes from outside the translation unit: the base
address `m_base` returned by `mmap`, and three declarations of
`FpgaController.h` (the numeric values of the `ctrlAddr` and `memoryOp`
enumerators and the byte-order conversion `htols`). They are parameters of
every definition below. -/
structure Env where
  m_base : Nat
  ctrlAddrVal : ctrlAddr → Nat
  memoryOpVal : memoryOp → Nat
  htols : Nat → Nat

/-- The memory-mapped device. `store s p v` is the device after the volatile
32-bit store of `v` at address `p`; `load s p` is the word a volatile 32-bit
load at `p` yields, with the device state after it; `sleep s` is the device
after the host has slept for one second. -/
structure Device (σ : Type) where
  store : σ → Nat → Nat → σ
  load : σ → Nat → Nat × σ
  sleep : σ → σ

/-- One call of a register primitive. `write addr value ptr writeVal` is a call
`writeReg(addr, value)` that stored `writeVal` at address `ptr`;
`read addr ptr ret` is a call `readReg(addr)` that loaded from `ptr` and
returned `ret`. -/
inductive Access where
  | write (addr : ctrlAddr) (value : Nat) (ptr : Nat) (writeVal : Nat)
  | read (addr : ctrlAddr) (ptr : Nat) (ret : Nat)
  deriving DecidableEq, Repr

/-- Device state together with the log of register accesses made so far. -/
structure World (σ : Type) where
  st : σ
  log : List Access
  deriving DecidableEq

/-- How the execution of a function with result type `uint64_t` ends. -/
inductive Outcome where
  /-- A `return` statement was executed with this value. -/
  | returned (v : Nat)
  /-- Control reached the closing brace without executing a `return`. -/
  | noReturn
  /-- The iteration bound was reached inside the poll loop. -/
  | running
  deriving DecidableEq, Repr

/-! ## Register primitives -/

/-- The expression `(uint32_t) addr << 5` for an enumerator of value `id`. -/
def byteOffset (id : Nat) : Nat :=
  ((id % 2 ^ 32) <<< 5) % 2 ^ 32

/-- The pointer `((uint64_t) m_base) + (uint64_t) ((uint32_t) addr << 5)`. -/
def regPtr (e : Env) (addr : ctrlAddr) : Nat :=
  (e.m_base % 2 ^ 64 + byteOffset (e.ctrlAddrVal addr)) % 2 ^ 64

/-- The overload `writeReg(ctrlAddr addr, uint8_t value)`. -/
def writeReg_u8 {σ : Type} (e : Env) (d : Device σ) (addr : ctrlAddr) (value : Nat)
    (w : World σ) : World σ :=
  let value := value % 2 ^ 8
  let wPtr := regPtr e addr
  let writeVal := e.htols value % 2 ^ 32
  { st := d.store w.st wPtr writeVal
    log := w.log ++ [Access.write addr value wPtr writeVal] }

/-- The overload `writeReg(ctrlAddr addr, uint32_t value)`. -/
def writeReg_u32 {σ : Type} (e : Env) (d : Device σ) (addr : ctrlAddr) (value : Nat)
    (w : World σ) : World σ :=
  let value := value % 2 ^ 32
  let wPtr := regPtr e addr
  let writeVal := e.htols value % 2 ^ 32
  { st := d.store w.st wPtr writeVal
    log := w.log ++ [Access.write addr value wPtr writeVal] }

/-- The primitive `readReg(ctrlAddr addr)`. -/
def readReg {σ : Type} (e : Env) (d : Device σ) (addr : ctrlAddr) (w : World σ) :
    Nat × World σ :=
  let rPtr := regPtr e addr
  let r := d.load w.st rPtr
  let ret := e.htols (r.1 % 2 ^ 32) % 2 ^ 32
  (ret, { st := r.2, log := w.log ++ [Access.read addr rPtr ret] })

/-! ## Operations -/

/-- The operation `writeTlb(unsigned long vaddr, unsigned long paddr, bool isBase)`,
with `unsigned long` 64 bits wide, as the shift `vaddr >> 32` presupposes. -/
def writeTlb {σ : Type} (e : Env) (d : Device σ) (vaddr paddr : Nat) (isBase : Bool)
    (w : World σ) : World σ :=
  let vaddr := vaddr % 2 ^ 64
  let paddr := paddr % 2 ^ 64
  let w := writeReg_u32 e d ctrlAddr.TLB (vaddr % 2 ^ 32) w
  let w := writeReg_u32 e d ctrlAddr.TLB ((vaddr >>> 32) % 2 ^ 32) w
  let w := writeReg_u32 e d ctrlAddr.TLB (paddr % 2 ^ 32) w
  let w := writeReg_u32 e d ctrlAddr.TLB ((paddr >>> 32) % 2 ^ 32) w
  writeReg_u32 e d ctrlAddr.TLB (if isBase then 1 else 0) w

/-- The eight `writeReg(ctrlAddr::DMA_BENCH, ...)` statements that open
`runDmaBenchmark`. -/
def configure {σ : Type} (e : Env) (d : Device σ)
    (baseAddr memorySize numberOfAccesses chunkLength strideLength : Nat) (op : memoryOp)
    (w : World σ) : World σ :=
  let baseAddr := baseAddr % 2 ^ 64
  let memorySize := memorySize % 2 ^ 64
  let w := writeReg_u32 e d ctrlAddr.DMA_BENCH (baseAddr % 2 ^ 32) w
  let w := writeReg_u32 e d ctrlAddr.DMA_BENCH ((baseAddr >>> 32) % 2 ^ 32) w
  let w := writeReg_u32 e d ctrlAddr.DMA_BENCH (memorySize % 2 ^ 32) w
  let w := writeReg_u32 e d ctrlAddr.DMA_BENCH ((memorySize >>> 32) % 2 ^ 32) w
  let w := writeReg_u32 e d ctrlAddr.DMA_BENCH (numberOfAccesses % 2 ^ 32) w
  let w := writeReg_u32 e d ctrlAddr.DMA_BENCH (chunkLength % 2 ^ 32) w
  let w := writeReg_u32 e d ctrlAddr.DMA_BENCH (strideLength % 2 ^ 32) w
  writeReg_u32 e d ctrlAddr.DMA_BENCH (e.memoryOpVal op % 2 ^ 32) w

/-- One execution of the body of the poll loop: sleep one second, read
`lower`, read `upper`. The result is `((lower, upper), world)`. -/
def pollOnce {σ : Type} (e : Env) (d : Device σ) (w : World σ) : (Nat × Nat) × World σ :=
  let w0 : World σ := { st := d.sleep w.st, log := w.log }
  let r1 := readReg e d ctrlAddr.DMA_BENCH_CYCLES w0
  let r2 := readReg e d ctrlAddr.DMA_BENCH_CYCLES r1.2
  ((r1.1, r2.1), r2.2)

/-- The loop `do { ... } while (lower == 0); return ((upper << 32) | lower);`
run for at most `fuel` iterations. -/
def pollLoop {σ : Type} (e : Env) (d : Device σ) : Nat → World σ → Outcome × World σ
  | 0, w => (Outcome.running, w)
  | fuel + 1, w =>
    let r := pollOnce e d w
    if r.1.1 = 0 then pollLoop e d fuel r.2
    else (Outcome.returned (((r.1.2 <<< 32) % 2 ^ 64) ||| r.1.1), r.2)

/-- The routine `runDmaBenchmark`, its poll loop bounded by `fuel` iterations. -/
def runDmaBenchmark {σ : Type} (e : Env) (d : Device σ) (fuel : Nat)
    (baseAddr memorySize numberOfAccesses chunkLength strideLength : Nat) (op : memoryOp)
    (w : World σ) : Outcome × World σ :=
  pollLoop e d fuel
    (configure e d baseAddr memorySize numberOfAccesses chunkLength strideLength op w)

/-- An expression statement that is the last statement of a `uint64_t`
function: the value of the call is dropped and the closing brace is reached. -/
def dropResult {σ : Type} (r : Outcome × World σ) : Outcome × World σ :=
  match r.1 with
  | Outcome.running => (Outcome.running, r.2)
  | _ => (Outcome.noReturn, r.2)

/-- The wrapper `runSeqWriteBenchmark`. -/
def runSeqWriteBenchmark {σ : Type} (e : Env) (d : Device σ) (fuel : Nat)
    (baseAddr memorySize numberOfAccesses chunkLength : Nat) (w : World σ) :
    Outcome × World σ :=
  dropResult
    (runDmaBenchmark e d fuel baseAddr memorySize numberOfAccesses chunkLength 0
      memoryOp.WRITE w)

/-- The wrapper `runSeqReadBenchmark`. -/
def runSeqReadBenchmark {σ : Type} (e : Env) (d : Device σ) (fuel : Nat)
    (baseAddr memorySize numberOfAccesses chunkLength : Nat) (w : World σ) :
    Outcome × World σ :=
  dropResult
    (runDmaBenchmark e d fuel baseAddr memorySize numberOfAccesses chunkLength 0
      memoryOp.READ w)

/-- The wrapper `runRandomWriteBenchmark`. -/
def runRandomWriteBenchmark {σ : Type} (e : Env) (d : Device σ) (fuel : Nat)
    (baseAddr memorySize numberOfAccesses chunkLength strideLength : Nat) (w : World σ) :
    Outcome × World σ :=
  dropResult
    (runDmaBenchmark e d fuel baseAddr memorySize numberOfAccesses chunkLength strideLength
      memoryOp.WRITE w)

/-- The wrapper `runRandomReadBenchmark`. -/
def runRandomReadBenchmark {σ : Type} (e : Env) (d : Device σ) (fuel : Nat)
    (baseAddr memorySize numberOfAccesses chunkLength strideLength : Nat) (w : World σ) :
    Outcome × World σ :=
  dropResult
    (runDmaBenchmark e d fuel baseAddr memorySize numberOfAccesses chunkLength strideLength
      memoryOp.READ w)

/-- The operation `setIpAddr(uint32_t addr)`. -/
def setIpAddr {σ : Type} (e : Env) (d : Device σ) (addr : Nat) (w : World σ) : World σ :=
  writeReg_u32 e d ctrlAddr.IPADDR (addr % 2 ^ 32) w

/-- The operation `setBoardNumber(uint8_t num)`. -/
def setBoardNumber {σ : Type} (e : Env) (d : Device σ) (num : Nat) (w : World σ) : World σ :=
  writeReg_u8 e d ctrlAddr.BOARDNUM (num % 2 ^ 8) w

/-- The operation `resetDmaReads()`. -/
def resetDmaReads {σ : Type} (e : Env) (d : Device σ) (w : World σ) : World σ :=
  writeReg_u8 e d ctrlAddr.DMA_READS (1 % 2 ^ 8) w

/-- The operation `getDmaReads()`. -/
def getDmaReads {σ : Type} (e : Env) (d : Device σ) (w : World σ) : Nat × World σ :=
  let r1 := readReg e d ctrlAddr.DMA_READS w
  let r2 := readReg e d ctrlAddr.DMA_READS r1.2
  (((r2.1 <<< 32) % 2 ^ 64) ||| r1.1, r2.2)

/-- The operation `resetDmaWrites()`. -/
def resetDmaWrites {σ : Type} (e : Env) (d : Device σ) (w : World σ) : World σ :=
  writeReg_u8 e d ctrlAddr.DMA_WRITES (1 % 2 ^ 8) w

/-- The operation `getDmaWrites()`. -/
def getDmaWrites {σ : Type} (e : Env) (d : Device σ) (w : World σ) : Nat × World σ :=
  let r1 := readReg e d ctrlAddr.DMA_WRITES w
  let r2 := readReg e d ctrlAddr.DMA_WRITES r1.2
  (((r2.1 <<< 32) % 2 ^ 64) ||| r1.1, r2.2)

/-! ## Observations on a run -/

/-- The log entry of a call `writeReg(addr, value)`. -/
def regWrite (e : Env) (addr : ctrlAddr) (value : Nat) : Access :=
  Access.write addr value (regPtr e addr) (e.htols value % 2 ^ 32)

/-- The log entry of a call `readReg(addr)` that returned `ret`. -/
def regRead (e : Env) (addr : ctrlAddr) (ret : Nat) : Access :=
  Access.read addr (regPtr e addr) ret

/-- The values passed to `writeReg`, in the order of the log. -/
def writtenValues (l : List Access) : List Nat :=
  l.filterMap fun a =>
    match a with
    | Access.write _ v _ _ => some v
    | Access.read _ _ _ => none

/-- The world after `n` executions of the body of the poll loop. -/
def afterPolls {σ : Type} (e : Env) (d : Device σ) : Nat → World σ → World σ
  | 0, w => w
  | n + 1, w => afterPolls e d n (pollOnce e d w).2

/-- The value of `lower` in poll number `i + 1` of the loop started in `w`. -/
def lowerAt {σ : Type} (e : Env) (d : Device σ) (w : World σ) (i : Nat) : Nat :=
  (pollOnce e d (afterPolls e d i w)).1.1

/-- The value of `upper` in poll number `i + 1` of the loop started in `w`. -/
def upperAt {σ : Type} (e : Env) (d : Device σ) (w : World σ) (i : Nat) : Nat :=
  (pollOnce e d (afterPolls e d i w)).1.2

/-- The two log entries of poll number `i + 1` of the loop started in `w`. -/
def pollReads {σ : Type} (e : Env) (d : Device σ) (w : World σ) (i : Nat) : List Access :=
  [regRead e ctrlAddr.DMA_BENCH_CYCLES (lowerAt e d w i),
   regRead e ctrlAddr.DMA_BENCH_CYCLES (upperAt e d w i)]

/-- The log entries of the first `n` polls of the loop started in `w`: two reads
of DMA_BENCH_CYCLES per poll, `lower` first. -/
def pollTrace {σ : Type} (e : Env) (d : Device σ) (w : World σ) : Nat → List Access
  | 0 => []
  | n + 1 => pollTrace e d w n ++ pollReads e d w n

/-- The device after the successive stores made by the calls
`writeReg(addr, v)` for the 32-bit values `v` of `values`, in this order: each
call stores the word `htols(v)` at the address of `addr`. -/
def storeWords {σ : Type} (e : Env) (d : Device σ) (addr : ctrlAddr) (values : List Nat)
    (s : σ) : σ :=
  values.foldl (fun t v => d.store t (regPtr e addr) (e.htols v % 2 ^ 32)) s

/-- The device after one poll: one second of sleep, then two loads at the
address of DMA_BENCH_CYCLES, and no store. -/
def devicePoll {σ : Type} (e : Env) (d : Device σ) (s : σ) : σ :=
  (d.load (d.load (d.sleep s) (regPtr e ctrlAddr.DMA_BENCH_CYCLES)).2
    (regPtr e ctrlAddr.DMA_BENCH_CYCLES)).2

/-! ## A scripted mock device and a sample environment -/

/-- State of the mock device: the words still to be handed out by loads, and
the stores received so far (address, word). -/
structure MockState where
  script : List Nat
  stores : List (Nat × Nat)
  deriving DecidableEq, Repr

/-- A mock device that records every store and answers the successive loads
with the successive words of its script (with 0 once the script is used up). -/
def mockDevice : Device MockState where
  store := fun s p v => { s with stores := s.stores ++ [(p, v)] }
  load := fun s _ => (s.script.headD 0, { s with script := s.script.tail })
  sleep := fun s => s

/-- A mock world with the given read script, no store and an empty log. -/
def mockWorld (script : List Nat) : World MockState :=
  { st := { script := script, stores := [] }, log := [] }

/-- A sample environment for concrete runs: a little-endian host (`htols` is
the identity), mapping base `0x7f0000000000`, and consecutive sample values for
the enumerators. -/
def sampleEnv : Env where
  m_base := 0x7f0000000000
  ctrlAddrVal := fun a =>
    match a with
    | ctrlAddr.TLB => 2
    | ctrlAddr.DMA_BENCH => 3
    | ctrlAddr.DMA_BENCH_CYCLES => 4
    | ctrlAddr.IPADDR => 5
    | ctrlAddr.BOARDNUM => 6
    | ctrlAddr.DMA_READS => 7
    | ctrlAddr.DMA_WRITES => 8
    | ctrlAddr.DEBUG => 9
    | ctrlAddr.DMA_DEBUG => 10
  memoryOpVal := fun o =>
    match o with
    | memoryOp.READ => 0
    | memoryOp.WRITE => 1
  htols := fun x => x

/-! ## Auxiliary facts -/

theorem shift_or_eq (u l : Nat) (hu : u < 2 ^ 32) (hl : l < 2 ^ 32) :
    ((u <<< 32) % 2 ^ 64) ||| l = 2 ^ 32 * u + l := by
  have h1 : (u <<< 32) % 2 ^ 64 = 2 ^ 32 * u := by
    rw [Nat.shiftLeft_eq, Nat.mul_comm]
    apply Nat.mod_eq_of_lt
    norm_num at hu ⊢
    omega
  rw [h1, ← Nat.mul_add_lt_is_or hl]

theorem shift_or_plain (u l : Nat) (hl : l < 2 ^ 32) :
    (u <<< 32) ||| l = 2 ^ 32 * u + l := by
  rw [Nat.shiftLeft_eq, Nat.mul_comm, ← Nat.mul_add_lt_is_or hl]

theorem shiftRight_32_lt (x : Nat) (hx : x < 2 ^ 64) : x >>> 32 < 2 ^ 32 := by
  rw [Nat.shiftRight_eq_div_pow]
  norm_num at hx ⊢
  omega

theorem byteOffset_eq_mul (id : Nat) (h : id < 2 ^ 27) : byteOffset id = id * 32 := by
  unfold byteOffset
  rw [Nat.shiftLeft_eq]
  norm_num at h ⊢
  omega

theorem readReg_lt {σ : Type} (e : Env) (d : Device σ) (addr : ctrlAddr) (w : World σ) :
    (readReg e d addr w).1 < 2 ^ 32 := by
  unfold readReg
  exact Nat.mod_lt _ (by norm_num)

theorem readReg_log {σ : Type} (e : Env) (d : Device σ) (addr : ctrlAddr) (w : World σ) :
    (readReg e d addr w).2.log = w.log ++ [regRead e addr (readReg e d addr w).1] := rfl

theorem writeReg_u32_log {σ : Type} (e : Env) (d : Device σ) (addr : ctrlAddr) (v : Nat)
    (w : World σ) :
    (writeReg_u32 e d addr v w).log = w.log ++ [regWrite e addr (v % 2 ^ 32)] := rfl

theorem writeReg_u8_log {σ : Type} (e : Env) (d : Device σ) (addr : ctrlAddr) (v : Nat)
    (w : World σ) :
    (writeReg_u8 e d addr v w).log = w.log ++ [regWrite e addr (v % 2 ^ 8)] := rfl

/-- Two reads combined as in `getDmaReads`, `getDmaWrites` and the return
statement of `runDmaBenchmark`. -/
theorem combine_spec (u l : Nat) (hu : u < 2 ^ 32) (hl : l < 2 ^ 32) :
    ((u <<< 32) % 2 ^ 64) ||| l = (u <<< 32) ||| l ∧
      (((u <<< 32) % 2 ^ 64) ||| l) % 2 ^ 32 = l ∧
      (((u <<< 32) % 2 ^ 64) ||| l) >>> 32 = u ∧
      ((u <<< 32) % 2 ^ 64) ||| l < 2 ^ 64 := by
  rw [shift_or_eq u l hu hl, shift_or_plain u l hl, Nat.shiftRight_eq_div_pow]
  norm_num at hu hl ⊢
  omega

theorem byteOffset_mod (id : Nat) : byteOffset id = (id * 32) % 2 ^ 32 := by
  unfold byteOffset
  rw [Nat.shiftLeft_eq]
  norm_num

theorem pollOnce_log {σ : Type} (e : Env) (d : Device σ) (w : World σ) :
    (pollOnce e d w).2.log = w.log ++
      [regRead e ctrlAddr.DMA_BENCH_CYCLES (pollOnce e d w).1.1,
       regRead e ctrlAddr.DMA_BENCH_CYCLES (pollOnce e d w).1.2] := by
  simp only [pollOnce, readReg_log, List.append_assoc, List.singleton_append]

theorem pollOnce_lt {σ : Type} (e : Env) (d : Device σ) (w : World σ) :
    (pollOnce e d w).1.1 < 2 ^ 32 ∧ (pollOnce e d w).1.2 < 2 ^ 32 :=
  ⟨readReg_lt _ _ _ _, readReg_lt _ _ _ _⟩

theorem afterPolls_succ {σ : Type} (e : Env) (d : Device σ) (n : Nat) (w : World σ) :
    afterPolls e d (n + 1) w = (pollOnce e d (afterPolls e d n w)).2 := by
  induction n generalizing w with
  | zero => rfl
  | succ n ih =>
    show afterPolls e d (n + 1) (pollOnce e d w).2 = _
    rw [ih]
    rfl

theorem afterPolls_add {σ : Type} (e : Env) (d : Device σ) (n m : Nat) (w : World σ) :
    afterPolls e d m (afterPolls e d n w) = afterPolls e d (n + m) w := by
  induction n generalizing w with
  | zero => simp [afterPolls]
  | succ n ih =>
    show afterPolls e d m (afterPolls e d n (pollOnce e d w).2) = _
    rw [ih, Nat.add_right_comm]
    rfl

theorem afterPolls_log {σ : Type} (e : Env) (d : Device σ) (n : Nat) (w : World σ) :
    (afterPolls e d n w).log = w.log ++ pollTrace e d w n := by
  induction n with
  | zero => simp [afterPolls, pollTrace]
  | succ n ih =>
    rw [afterPolls_succ, pollOnce_log, ih, pollTrace, List.append_assoc]
    rfl

theorem pollTrace_reads {σ : Type} (e : Env) (d : Device σ) (w : World σ) (n : Nat) :
    ∀ a ∈ pollTrace e d w n, ∃ r, a = regRead e ctrlAddr.DMA_BENCH_CYCLES r := by
  induction n with
  | zero => intro a ha; simp [pollTrace] at ha
  | succ n ih =>
    intro a ha
    simp only [pollTrace, pollReads, List.mem_append, List.mem_cons, List.mem_singleton,
      List.not_mem_nil, or_false] at ha
    rcases ha with h | h | h
    · exact ih a h
    · exact ⟨_, h⟩
    · exact ⟨_, h⟩

theorem pollLoop_zeros {σ : Type} (e : Env) (d : Device σ) (k m : Nat) (w : World σ)
    (h : ∀ i < k, lowerAt e d w i = 0) :
    pollLoop e d (k + m) w = pollLoop e d m (afterPolls e d k w) := by
  induction k generalizing w with
  | zero => simp [afterPolls]
  | succ k ih =>
    have h0 : (pollOnce e d w).1.1 = 0 := h 0 (Nat.succ_pos k)
    have hs : ∀ i < k, lowerAt e d (pollOnce e d w).2 i = 0 := fun i hi =>
      h (i + 1) (Nat.succ_lt_succ hi)
    rw [Nat.add_right_comm]
    show (if (pollOnce e d w).1.1 = 0 then pollLoop e d (k + m) (pollOnce e d w).2 else _) = _
    rw [if_pos h0, ih _ hs]
    rfl

theorem pollLoop_exit {σ : Type} (e : Env) (d : Device σ) (m : Nat) (w : World σ)
    (h : lowerAt e d w 0 ≠ 0) :
    pollLoop e d (m + 1) w =
      (Outcome.returned ((upperAt e d w 0 <<< 32) ||| lowerAt e d w 0), afterPolls e d 1 w) := by
  have h0 : ¬ (pollOnce e d w).1.1 = 0 := h
  show (if (pollOnce e d w).1.1 = 0 then _ else _) = _
  rw [if_neg h0, (combine_spec _ _ (pollOnce_lt e d w).2 (pollOnce_lt e d w).1).1]
  rfl

theorem pollLoop_world {σ : Type} (e : Env) (d : Device σ) (fuel : Nat) (w : World σ) :
    ∃ j, j ≤ fuel ∧ (pollLoop e d fuel w).2 = afterPolls e d j w ∧
      ((pollLoop e d fuel w).1 = Outcome.running → j = fuel) ∧ (0 < fuel → 0 < j) := by
  induction fuel generalizing w with
  | zero => exact ⟨0, Nat.le_refl 0, rfl, fun _ => rfl, fun h => h⟩
  | succ n ih =>
    by_cases h0 : (pollOnce e d w).1.1 = 0
    · obtain ⟨j, hj, hw, hr, _⟩ := ih (pollOnce e d w).2
      have hstep : pollLoop e d (n + 1) w = pollLoop e d n (pollOnce e d w).2 := by
        show (if (pollOnce e d w).1.1 = 0 then _ else _) = _
        rw [if_pos h0]
      refine ⟨j + 1, Nat.succ_le_succ hj, ?_, ?_, fun _ => Nat.succ_pos j⟩
      · rw [hstep, hw]; rfl
      · intro hrun
        rw [hstep] at hrun
        rw [hr hrun]
    · have hstep := pollLoop_exit e d n w h0
      refine ⟨1, Nat.succ_le_succ (Nat.zero_le n), ?_, ?_, fun _ => Nat.one_pos⟩
      · rw [hstep]
      · intro hrun
        rw [hstep] at hrun
        cases hrun

theorem pollLoop_low_ne_zero {σ : Type} (e : Env) (d : Device σ) (fuel : Nat) (w : World σ)
    (r : Nat) (h : (pollLoop e d fuel w).1 = Outcome.returned r) : r % 2 ^ 32 ≠ 0 := by
  induction fuel generalizing w with
  | zero => cases h
  | succ n ih =>
    by_cases h0 : (pollOnce e d w).1.1 = 0
    · have hstep : pollLoop e d (n + 1) w = pollLoop e d n (pollOnce e d w).2 := by
        show (if (pollOnce e d w).1.1 = 0 then _ else _) = _
        rw [if_pos h0]
      rw [hstep] at h
      exact ih _ h
    · have hstep : pollLoop e d (n + 1) w = (Outcome.returned
          ((((pollOnce e d w).1.2 <<< 32) % 2 ^ 64) ||| (pollOnce e d w).1.1),
          (pollOnce e d w).2) := by
        show (if (pollOnce e d w).1.1 = 0 then _ else _) = _
        rw [if_neg h0]
      rw [hstep] at h
      injection h with h
      rw [← h, (combine_spec _ _ (pollOnce_lt e d w).2 (pollOnce_lt e d w).1).2.1]
      exact h0


theorem pollTrace_extend {σ : Type} (e : Env) (d : Device σ) (w : World σ) (a m : Nat) :
    ∃ rest, pollTrace e d w (a + m) = pollTrace e d w a ++ rest := by
  induction m with
  | zero => exact ⟨[], by simp⟩
  | succ m ih =>
    obtain ⟨rest, hr⟩ := ih
    refine ⟨rest ++ pollReads e d w (a + m), ?_⟩
    show pollTrace e d w (a + m) ++ pollReads e d w (a + m) = _
    rw [hr, List.append_assoc]

theorem configure_log {σ : Type} (e : Env) (d : Device σ)
    (baseAddr memorySize numberOfAccesses chunkLength strideLength : Nat) (op : memoryOp)
    (w : World σ) (hb : baseAddr < 2 ^ 64) (hm : memorySize < 2 ^ 64)
    (hn : numberOfAccesses < 2 ^ 32) (hc : chunkLength < 2 ^ 32)
    (hs : strideLength < 2 ^ 32) :
    (configure e d baseAddr memorySize numberOfAccesses chunkLength strideLength op w).log =
      w.log ++
        [regWrite e ctrlAddr.DMA_BENCH (baseAddr % 2 ^ 32),
         regWrite e ctrlAddr.DMA_BENCH (baseAddr >>> 32),
         regWrite e ctrlAddr.DMA_BENCH (memorySize % 2 ^ 32),
         regWrite e ctrlAddr.DMA_BENCH (memorySize >>> 32),
         regWrite e ctrlAddr.DMA_BENCH numberOfAccesses,
         regWrite e ctrlAddr.DMA_BENCH chunkLength,
         regWrite e ctrlAddr.DMA_BENCH strideLength,
         regWrite e ctrlAddr.DMA_BENCH (e.memoryOpVal op % 2 ^ 32)] := by
  have h1 := shiftRight_32_lt baseAddr hb
  have h2 := shiftRight_32_lt memorySize hm
  simp only [configure, writeReg_u32_log, Nat.mod_eq_of_lt hb, Nat.mod_eq_of_lt hm,
    Nat.mod_eq_of_lt h1, Nat.mod_eq_of_lt h2, Nat.mod_eq_of_lt hn, Nat.mod_eq_of_lt hc,
    Nat.mod_eq_of_lt hs, Nat.mod_mod, List.append_assoc, List.singleton_append,
    List.cons_append, List.nil_append]

theorem runDmaBenchmark_log {σ : Type} (e : Env) (d : Device σ) (fuel : Nat)
    (baseAddr memorySize numberOfAccesses chunkLength strideLength : Nat) (op : memoryOp)
    (w : World σ) :
    ∃ j, j ≤ fuel ∧
      (runDmaBenchmark e d fuel baseAddr memorySize numberOfAccesses chunkLength strideLength
        op w).2.log =
      (configure e d baseAddr memorySize numberOfAccesses chunkLength strideLength op w).log ++
        pollTrace e d
          (configure e d baseAddr memorySize numberOfAccesses chunkLength strideLength op w)
          j := by
  obtain ⟨j, hj, hw, _, _⟩ := pollLoop_world e d fuel
    (configure e d baseAddr memorySize numberOfAccesses chunkLength strideLength op w)
  refine ⟨j, hj, ?_⟩
  unfold runDmaBenchmark
  rw [hw, afterPolls_log]

theorem writtenValues_append (l1 l2 : List Access) :
    writtenValues (l1 ++ l2) = writtenValues l1 ++ writtenValues l2 := by
  simp [writtenValues, List.filterMap_append]

theorem writtenValues_pollTrace {σ : Type} (e : Env) (d : Device σ) (w : World σ) (n : Nat) :
    writtenValues (pollTrace e d w n) = [] := by
  induction n with
  | zero => rfl
  | succ n ih =>
    show writtenValues (pollTrace e d w n ++ pollReads e d w n) = []
    rw [writtenValues_append, ih]
    rfl

theorem dropResult_snd {σ : Type} (r : Outcome × World σ) : (dropResult r).2 = r.2 := by
  unfold dropResult
  split <;> rfl

theorem runDmaBenchmark_written {σ : Type} (e : Env) (d : Device σ) (fuel : Nat)
    (baseAddr memorySize numberOfAccesses chunkLength strideLength : Nat) (op : memoryOp)
    (w : World σ) (hb : baseAddr < 2 ^ 64) (hm : memorySize < 2 ^ 64)
    (hn : numberOfAccesses < 2 ^ 32) (hc : chunkLength < 2 ^ 32)
    (hs : strideLength < 2 ^ 32) :
    writtenValues (runDmaBenchmark e d fuel baseAddr memorySize numberOfAccesses chunkLength
        strideLength op w).2.log =
      writtenValues w.log ++
        [baseAddr % 2 ^ 32, baseAddr >>> 32, memorySize % 2 ^ 32, memorySize >>> 32,
         numberOfAccesses, chunkLength, strideLength, e.memoryOpVal op % 2 ^ 32] := by
  obtain ⟨j, _, hlog⟩ := runDmaBenchmark_log e d fuel baseAddr memorySize numberOfAccesses
    chunkLength strideLength op w
  rw [hlog, configure_log e d _ _ _ _ _ op w hb hm hn hc hs, writtenValues_append,
    writtenValues_append, writtenValues_pollTrace, List.append_nil]
  rfl

theorem afterPolls_st {σ : Type} (e : Env) (d : Device σ) (n : Nat) (w : World σ) :
    (afterPolls e d n w).st = (devicePoll e d)^[n] w.st := by
  induction n generalizing w with
  | zero => rfl
  | succ n ih =>
    show (afterPolls e d n (pollOnce e d w).2).st = _
    rw [ih, Function.iterate_succ_apply]
    rfl

theorem configure_st {σ : Type} (e : Env) (d : Device σ)
    (baseAddr memorySize numberOfAccesses chunkLength strideLength : Nat) (op : memoryOp)
    (w : World σ) (hb : baseAddr < 2 ^ 64) (hm : memorySize < 2 ^ 64)
    (hn : numberOfAccesses < 2 ^ 32) (hc : chunkLength < 2 ^ 32)
    (hs : strideLength < 2 ^ 32) :
    (configure e d baseAddr memorySize numberOfAccesses chunkLength strideLength op w).st =
      storeWords e d ctrlAddr.DMA_BENCH
        [baseAddr % 2 ^ 32, baseAddr >>> 32, memorySize % 2 ^ 32, memorySize >>> 32,
         numberOfAccesses, chunkLength, strideLength, e.memoryOpVal op % 2 ^ 32] w.st := by
  have h1 := shiftRight_32_lt baseAddr hb
  have h2 := shiftRight_32_lt memorySize hm
  simp only [configure, writeReg_u32, storeWords, List.foldl, Nat.mod_eq_of_lt hb,
    Nat.mod_eq_of_lt hm, Nat.mod_eq_of_lt h1, Nat.mod_eq_of_lt h2, Nat.mod_eq_of_lt hn,
    Nat.mod_eq_of_lt hc, Nat.mod_eq_of_lt hs, Nat.mod_mod]

theorem runDmaBenchmark_st {σ : Type} (e : Env) (d : Device σ) (fuel : Nat)
    (baseAddr memorySize numberOfAccesses chunkLength strideLength : Nat) (op : memoryOp)
    (w : World σ) (hb : baseAddr < 2 ^ 64) (hm : memorySize < 2 ^ 64)
    (hn : numberOfAccesses < 2 ^ 32) (hc : chunkLength < 2 ^ 32)
    (hs : strideLength < 2 ^ 32) :
    ∃ j, j ≤ fuel ∧
      (runDmaBenchmark e d fuel baseAddr memorySize numberOfAccesses chunkLength strideLength
        op w).2.st =
      (devicePoll e d)^[j]
        (storeWords e d ctrlAddr.DMA_BENCH
          [baseAddr % 2 ^ 32, baseAddr >>> 32, memorySize % 2 ^ 32, memorySize >>> 32,
           numberOfAccesses, chunkLength, strideLength, e.memoryOpVal op % 2 ^ 32] w.st) := by
  obtain ⟨j, hj, hw, _, _⟩ := pollLoop_world e d fuel
    (configure e d baseAddr memorySize numberOfAccesses chunkLength strideLength op w)
  refine ⟨j, hj, ?_⟩
  unfold runDmaBenchmark
  rw [hw, afterPolls_st, configure_st e d _ _ _ _ _ op w hb hm hn hc hs]

theorem wrapper_st {σ : Type} (e : Env) (d : Device σ) (fuel : Nat)
    (baseAddr memorySize numberOfAccesses chunkLength strideLength : Nat) (op : memoryOp)
    (w : World σ) (hb : baseAddr < 2 ^ 64) (hm : memorySize < 2 ^ 64)
    (hn : numberOfAccesses < 2 ^ 32) (hc : chunkLength < 2 ^ 32)
    (hs : strideLength < 2 ^ 32) :
    ∃ j, j ≤ fuel ∧
      (dropResult (runDmaBenchmark e d fuel baseAddr memorySize numberOfAccesses chunkLength
        strideLength op w)).2.st =
      (devicePoll e d)^[j]
        (storeWords e d ctrlAddr.DMA_BENCH
          [baseAddr % 2 ^ 32, baseAddr >>> 32, memorySize % 2 ^ 32, memorySize >>> 32,
           numberOfAccesses, chunkLength, strideLength, e.memoryOpVal op % 2 ^ 32] w.st) := by
  rw [dropResult_snd]
  exact runDmaBenchmark_st e d fuel _ _ _ _ _ op w hb hm hn hc hs

theorem wrapper_written {σ : Type} (e : Env) (d : Device σ) (fuel : Nat)
    (baseAddr memorySize numberOfAccesses chunkLength strideLength : Nat) (op : memoryOp)
    (w : World σ) (hb : baseAddr < 2 ^ 64) (hm : memorySize < 2 ^ 64)
    (hn : numberOfAccesses < 2 ^ 32) (hc : chunkLength < 2 ^ 32)
    (hs : strideLength < 2 ^ 32) :
    writtenValues (dropResult (runDmaBenchmark e d fuel baseAddr memorySize numberOfAccesses
        chunkLength strideLength op w)).2.log =
      writtenValues w.log ++
        [baseAddr % 2 ^ 32, baseAddr >>> 32, memorySize % 2 ^ 32, memorySize >>> 32,
         numberOfAccesses, chunkLength, strideLength, e.memoryOpVal op % 2 ^ 32] := by
  rw [dropResult_snd]
  exact runDmaBenchmark_written e d fuel _ _ _ _ _ op w hb hm hn hc hs

theorem nth_differ_seventh (l : List Nat) (a0 a1 a2 a3 a4 a5 x y a7 : Nat) (i : Nat)
    (hi : i ≠ l.length + 6) :
    (l ++ [a0, a1, a2, a3, a4, a5, x, a7])[i]? = (l ++ [a0, a1, a2, a3, a4, a5, y, a7])[i]? := by
  by_cases h : i < l.length
  · rw [List.getElem?_append_left h, List.getElem?_append_left h]
  · have h2 : l.length ≤ i := Nat.le_of_not_lt h
    rw [List.getElem?_append_right h2, List.getElem?_append_right h2]
    have h3 : i - l.length ≠ 6 := by omega
    generalize i - l.length = t at h3
    match t, h3 with
    | 0, _ => rfl
    | 1, _ => rfl
    | 2, _ => rfl
    | 3, _ => rfl
    | 4, _ => rfl
    | 5, _ => rfl
    | 6, h => exact absurd rfl h
    | 7, _ => rfl
    | _ + 8, _ => rfl

/-! ## The claims -/

/-- C1. For 64-bit `vaddr` and `paddr` and either value of `isBase`, `writeTlb`
appends exactly five accesses to the log, all of them writes to the TLB
register and none a read: the low 32 bits of `vaddr`, `vaddr >> 32`, the low 32
bits of `paddr`, `paddr >> 32`, and the flag word, 1 when `isBase` is true and
0 when it is false. The device itself receives exactly these five words, in
this order, as five stores at the address of the TLB register, and no load. -/
theorem writeTlb_trace {σ : Type} (e : Env) (d : Device σ) (vaddr paddr : Nat)
    (isBase : Bool) (w : World σ) (hv : vaddr < 2 ^ 64) (hp : paddr < 2 ^ 64) :
    (writeTlb e d vaddr paddr isBase w).log = w.log ++
      [regWrite e ctrlAddr.TLB (vaddr % 2 ^ 32),
       regWrite e ctrlAddr.TLB (vaddr >>> 32),
       regWrite e ctrlAddr.TLB (paddr % 2 ^ 32),
       regWrite e ctrlAddr.TLB (paddr >>> 32),
       regWrite e ctrlAddr.TLB (if isBase = true then 1 else 0)] ∧
    (writeTlb e d vaddr paddr isBase w).st =
      d.store
        (d.store
          (d.store
            (d.store
              (d.store w.st (regPtr e ctrlAddr.TLB) (e.htols (vaddr % 2 ^ 32) % 2 ^ 32))
              (regPtr e ctrlAddr.TLB) (e.htols (vaddr >>> 32) % 2 ^ 32))
            (regPtr e ctrlAddr.TLB) (e.htols (paddr % 2 ^ 32) % 2 ^ 32))
          (regPtr e ctrlAddr.TLB) (e.htols (paddr >>> 32) % 2 ^ 32))
        (regPtr e ctrlAddr.TLB) (e.htols (if isBase = true then 1 else 0) % 2 ^ 32) := by
  have h1 := shiftRight_32_lt vaddr hv
  have h2 := shiftRight_32_lt paddr hp
  have h3 : (if isBase = true then 1 else 0) % 2 ^ 32 = (if isBase = true then 1 else 0) := by
    cases isBase <;> rfl
  constructor
  · simp only [writeTlb, writeReg_u32_log, Nat.mod_eq_of_lt hv, Nat.mod_eq_of_lt hp,
      Nat.mod_eq_of_lt h1, Nat.mod_eq_of_lt h2, Nat.mod_mod, h3, List.append_assoc,
      List.singleton_append, List.cons_append, List.nil_append]
  · simp only [writeTlb, writeReg_u32, Nat.mod_eq_of_lt hv, Nat.mod_eq_of_lt hp,
      Nat.mod_eq_of_lt h1, Nat.mod_eq_of_lt h2, Nat.mod_mod, h3]

/-- Witness of C1: the five writes of `writeTlb(0x1122334455667788,
0x99aabbccddeeff00, true)` on the mock device, in the log and as the stores
(address, word) the mock device has received. -/
theorem writeTlb_trace_witness :
    (writeTlb sampleEnv mockDevice 0x1122334455667788 0x99aabbccddeeff00 true
        (mockWorld [])).log =
      [Access.write ctrlAddr.TLB 0x55667788 0x7f0000000040 0x55667788,
       Access.write ctrlAddr.TLB 0x11223344 0x7f0000000040 0x11223344,
       Access.write ctrlAddr.TLB 0xddeeff00 0x7f0000000040 0xddeeff00,
       Access.write ctrlAddr.TLB 0x99aabbcc 0x7f0000000040 0x99aabbcc,
       Access.write ctrlAddr.TLB 1 0x7f0000000040 1] ∧
    (writeTlb sampleEnv mockDevice 0x1122334455667788 0x99aabbccddeeff00 true
        (mockWorld [])).st =
      { script := [],
        stores := [(0x7f0000000040, 0x55667788), (0x7f0000000040, 0x11223344),
          (0x7f0000000040, 0xddeeff00), (0x7f0000000040, 0x99aabbcc),
          (0x7f0000000040, 1)] } := by
  have h := writeTlb_trace sampleEnv mockDevice 0x1122334455667788 0x99aabbccddeeff00 true
    (mockWorld []) (by decide) (by decide)
  exact ⟨h.1.trans (by decide), h.2.trans (by decide)⟩

/-- C6. `getDmaReads` appends exactly two accesses to the log, both reads of
DMA_READS, and returns `(upper << 32) | lower`, where `lower` is the word the
first read returned and `upper` the word the second read returned; the low 32
bits of the result are `lower`, its high 32 bits are `upper`, and it fits in 64
bits; the device undergoes exactly two loads at the address of DMA_READS and
no store. `getDmaWrites` does the same on DMA_WRITES. -/
theorem getDma_combine {σ : Type} (e : Env) (d : Device σ) (w : World σ) :
    (∃ lower upper : Nat,
      lower = (readReg e d ctrlAddr.DMA_READS w).1 ∧
      upper = (readReg e d ctrlAddr.DMA_READS (readReg e d ctrlAddr.DMA_READS w).2).1 ∧
      (getDmaReads e d w).2.log = w.log ++
        [regRead e ctrlAddr.DMA_READS lower, regRead e ctrlAddr.DMA_READS upper] ∧
      (getDmaReads e d w).1 = (upper <<< 32) ||| lower ∧
      (getDmaReads e d w).1 % 2 ^ 32 = lower ∧
      (getDmaReads e d w).1 >>> 32 = upper ∧
      (getDmaReads e d w).1 < 2 ^ 64 ∧
      (getDmaReads e d w).2.st =
        (d.load (d.load w.st (regPtr e ctrlAddr.DMA_READS)).2
          (regPtr e ctrlAddr.DMA_READS)).2) ∧
    (∃ lower upper : Nat,
      lower = (readReg e d ctrlAddr.DMA_WRITES w).1 ∧
      upper = (readReg e d ctrlAddr.DMA_WRITES (readReg e d ctrlAddr.DMA_WRITES w).2).1 ∧
      (getDmaWrites e d w).2.log = w.log ++
        [regRead e ctrlAddr.DMA_WRITES lower, regRead e ctrlAddr.DMA_WRITES upper] ∧
      (getDmaWrites e d w).1 = (upper <<< 32) ||| lower ∧
      (getDmaWrites e d w).1 % 2 ^ 32 = lower ∧
      (getDmaWrites e d w).1 >>> 32 = upper ∧
      (getDmaWrites e d w).1 < 2 ^ 64 ∧
      (getDmaWrites e d w).2.st =
        (d.load (d.load w.st (regPtr e ctrlAddr.DMA_WRITES)).2
          (regPtr e ctrlAddr.DMA_WRITES)).2) := by
  constructor
  · have hl := readReg_lt e d ctrlAddr.DMA_READS w
    have hu := readReg_lt e d ctrlAddr.DMA_READS (readReg e d ctrlAddr.DMA_READS w).2
    obtain ⟨c1, c2, c3, c4⟩ := combine_spec _ _ hu hl
    refine ⟨_, _, rfl, rfl, ?_, c1, c2, c3, c4, rfl⟩
    simp only [getDmaReads, readReg_log, List.append_assoc, List.singleton_append]
  · have hl := readReg_lt e d ctrlAddr.DMA_WRITES w
    have hu := readReg_lt e d ctrlAddr.DMA_WRITES (readReg e d ctrlAddr.DMA_WRITES w).2
    obtain ⟨c1, c2, c3, c4⟩ := combine_spec _ _ hu hl
    refine ⟨_, _, rfl, rfl, ?_, c1, c2, c3, c4, rfl⟩
    simp only [getDmaWrites, readReg_log, List.append_assoc, List.singleton_append]

/-- C7. Each of `setIpAddr`, `setBoardNumber`, `resetDmaReads` and
`resetDmaWrites` appends exactly one access to the log, a write, and changes
the device by exactly one store: `setIpAddr(addr)` writes the 32-bit `addr` to
IPADDR, `setBoardNumber(num)` writes the 8-bit `num`, widened without change of
value, to BOARDNUM, `resetDmaReads` writes 1 to DMA_READS and `resetDmaWrites`
writes 1 to DMA_WRITES. -/
theorem single_word_writes {σ : Type} (e : Env) (d : Device σ) (addr num : Nat)
    (w : World σ) (haddr : addr < 2 ^ 32) (hnum : num < 2 ^ 8) :
    ((setIpAddr e d addr w).log = w.log ++ [regWrite e ctrlAddr.IPADDR addr] ∧
      (setIpAddr e d addr w).st =
        d.store w.st (regPtr e ctrlAddr.IPADDR) (e.htols addr % 2 ^ 32)) ∧
    ((setBoardNumber e d num w).log = w.log ++ [regWrite e ctrlAddr.BOARDNUM num] ∧
      (setBoardNumber e d num w).st =
        d.store w.st (regPtr e ctrlAddr.BOARDNUM) (e.htols num % 2 ^ 32)) ∧
    ((resetDmaReads e d w).log = w.log ++ [regWrite e ctrlAddr.DMA_READS 1] ∧
      (resetDmaReads e d w).st =
        d.store w.st (regPtr e ctrlAddr.DMA_READS) (e.htols 1 % 2 ^ 32)) ∧
    ((resetDmaWrites e d w).log = w.log ++ [regWrite e ctrlAddr.DMA_WRITES 1] ∧
      (resetDmaWrites e d w).st =
        d.store w.st (regPtr e ctrlAddr.DMA_WRITES) (e.htols 1 % 2 ^ 32)) := by
  refine ⟨⟨?_, ?_⟩, ⟨?_, ?_⟩, ⟨rfl, rfl⟩, ⟨rfl, rfl⟩⟩
  · simp only [setIpAddr, writeReg_u32_log, Nat.mod_eq_of_lt haddr]
  · simp only [setIpAddr, writeReg_u32, Nat.mod_eq_of_lt haddr]
  · simp only [setBoardNumber, writeReg_u8_log, Nat.mod_eq_of_lt hnum]
  · simp only [setBoardNumber, writeReg_u8, Nat.mod_eq_of_lt hnum]

/-- Witness of C7: `setIpAddr(0x0A000001)` and `setBoardNumber(3)` on the mock
device, with the two counter resets. -/
theorem single_word_writes_witness :
    (setIpAddr sampleEnv mockDevice 0x0A000001 (mockWorld [])).log =
        [Access.write ctrlAddr.IPADDR 0x0A000001 0x7f00000000a0 0x0A000001] ∧
      (setBoardNumber sampleEnv mockDevice 3 (mockWorld [])).log =
        [Access.write ctrlAddr.BOARDNUM 3 0x7f00000000c0 3] ∧
      (resetDmaReads sampleEnv mockDevice (mockWorld [])).log =
        [Access.write ctrlAddr.DMA_READS 1 0x7f00000000e0 1] ∧
      (resetDmaWrites sampleEnv mockDevice (mockWorld [])).log =
        [Access.write ctrlAddr.DMA_WRITES 1 0x7f0000000100 1] := by
  have h := single_word_writes sampleEnv mockDevice 0x0A000001 3 (mockWorld [])
    (by decide) (by decide)
  refine ⟨h.1.1.trans ?_, h.2.1.1.trans ?_, h.2.2.1.1.trans ?_, h.2.2.2.1.trans ?_⟩ <;> decide

/-- C9. The three register primitives use one and the same address for a
register, `m_base + ((uint32_t) id << 5)`, and touch the device exactly once
there (one store, or one load). The offset `id << 5` taken in 32-bit unsigned
arithmetic is `id * 32` modulo `2 ^ 32` for every id; it is `id * 32` for every id below
`2 ^ 27`, and two distinct ids below `2 ^ 27` have offsets at least 32 bytes
apart, so that the 4-byte words at these offsets are disjoint. -/
theorem register_offset (i j : Nat) (hi : i < 2 ^ 27) (hj : j < 2 ^ 27) (hij : i ≠ j) :
    byteOffset i = i * 32 ∧ byteOffset j = j * 32 ∧
    (byteOffset i + 32 ≤ byteOffset j ∨ byteOffset j + 32 ≤ byteOffset i) ∧
    (byteOffset i + 4 ≤ byteOffset j ∨ byteOffset j + 4 ≤ byteOffset i) ∧
    (∀ id : Nat, byteOffset id = (id * 32) % 2 ^ 32) ∧
    (∀ (σ : Type) (e : Env) (d : Device σ) (addr : ctrlAddr) (v : Nat) (w : World σ),
      regPtr e addr = (e.m_base % 2 ^ 64 + byteOffset (e.ctrlAddrVal addr)) % 2 ^ 64 ∧
      (writeReg_u32 e d addr v w).st =
        d.store w.st (regPtr e addr) (e.htols (v % 2 ^ 32) % 2 ^ 32) ∧
      (writeReg_u8 e d addr v w).st =
        d.store w.st (regPtr e addr) (e.htols (v % 2 ^ 8) % 2 ^ 32) ∧
      (readReg e d addr w).1 = e.htols ((d.load w.st (regPtr e addr)).1 % 2 ^ 32) % 2 ^ 32 ∧
      (readReg e d addr w).2.st = (d.load w.st (regPtr e addr)).2 ∧
      (e.ctrlAddrVal addr < 2 ^ 27 → e.m_base + e.ctrlAddrVal addr * 32 < 2 ^ 64 →
        regPtr e addr = e.m_base + e.ctrlAddrVal addr * 32)) := by
  have h1 := byteOffset_eq_mul i hi
  have h2 := byteOffset_eq_mul j hj
  refine ⟨h1, h2, ?_, ?_, ?_, ?_⟩
  · rw [h1, h2]; omega
  · rw [h1, h2]; omega
  · exact byteOffset_mod
  · intro σ e d addr v w
    refine ⟨rfl, rfl, rfl, rfl, rfl, ?_⟩
    intro ha hb
    unfold regPtr
    rw [byteOffset_eq_mul _ ha]
    have hm : e.m_base < 2 ^ 64 := by omega
    rw [Nat.mod_eq_of_lt hm, Nat.mod_eq_of_lt hb]

/-- Witness of C9: the sample values 2 (TLB) and 3 (DMA_BENCH) give the byte
offsets 64 and 96. -/
theorem register_offset_witness :
    byteOffset 2 = 64 ∧ byteOffset 3 = 96 ∧ byteOffset 2 + 32 ≤ byteOffset 3 := by
  have h := register_offset 2 3 (by decide) (by decide) (by decide)
  exact ⟨h.1, h.2.1, by decide⟩

/-- C2. For 64-bit `baseAddr` and `memorySize`, 32-bit `numberOfAccesses`,
`chunkLength` and `strideLength`, either `op` and every bound on the number of
polls, the accesses `runDmaBenchmark` appends to the log are eight writes to
DMA_BENCH followed only by reads of DMA_BENCH_CYCLES. The eight words are, in
this order: low and high half of `baseAddr`, low and high half of
`memorySize`, `numberOfAccesses`, `chunkLength`, `strideLength`, and the
numeric value of `op` as a `uint32_t`. The first seven are the same for every
`op`. The device itself receives exactly these eight words, in this order, as
eight stores at the address of DMA_BENCH, before anything else; after them it
undergoes only polls (sleep and two loads at the address of DMA_BENCH_CYCLES),
at most as many as the bound allows, and no further store. -/
theorem runDmaBenchmark_config {σ : Type} (e : Env) (d : Device σ) (fuel : Nat)
    (baseAddr memorySize numberOfAccesses chunkLength strideLength : Nat) (op : memoryOp)
    (w : World σ) (hb : baseAddr < 2 ^ 64) (hm : memorySize < 2 ^ 64)
    (hn : numberOfAccesses < 2 ^ 32) (hc : chunkLength < 2 ^ 32)
    (hs : strideLength < 2 ^ 32) :
    (∃ reads : List Access,
      (runDmaBenchmark e d fuel baseAddr memorySize numberOfAccesses chunkLength strideLength
          op w).2.log =
        w.log ++
          [regWrite e ctrlAddr.DMA_BENCH (baseAddr % 2 ^ 32),
           regWrite e ctrlAddr.DMA_BENCH (baseAddr >>> 32),
           regWrite e ctrlAddr.DMA_BENCH (memorySize % 2 ^ 32),
           regWrite e ctrlAddr.DMA_BENCH (memorySize >>> 32),
           regWrite e ctrlAddr.DMA_BENCH numberOfAccesses,
           regWrite e ctrlAddr.DMA_BENCH chunkLength,
           regWrite e ctrlAddr.DMA_BENCH strideLength,
           regWrite e ctrlAddr.DMA_BENCH (e.memoryOpVal op % 2 ^ 32)] ++ reads ∧
      ∀ a ∈ reads, ∃ r, a = regRead e ctrlAddr.DMA_BENCH_CYCLES r) ∧
    (∀ op2 : memoryOp,
      (((runDmaBenchmark e d fuel baseAddr memorySize numberOfAccesses chunkLength
          strideLength op2 w).2.log).drop w.log.length).take 7 =
        [regWrite e ctrlAddr.DMA_BENCH (baseAddr % 2 ^ 32),
         regWrite e ctrlAddr.DMA_BENCH (baseAddr >>> 32),
         regWrite e ctrlAddr.DMA_BENCH (memorySize % 2 ^ 32),
         regWrite e ctrlAddr.DMA_BENCH (memorySize >>> 32),
         regWrite e ctrlAddr.DMA_BENCH numberOfAccesses,
         regWrite e ctrlAddr.DMA_BENCH chunkLength,
         regWrite e ctrlAddr.DMA_BENCH strideLength]) ∧
    (∃ j, j ≤ fuel ∧
      (runDmaBenchmark e d fuel baseAddr memorySize numberOfAccesses chunkLength strideLength
        op w).2.st =
      (devicePoll e d)^[j]
        (storeWords e d ctrlAddr.DMA_BENCH
          [baseAddr % 2 ^ 32, baseAddr >>> 32, memorySize % 2 ^ 32, memorySize >>> 32,
           numberOfAccesses, chunkLength, strideLength, e.memoryOpVal op % 2 ^ 32] w.st)) := by
  refine ⟨?_, ?_, ?_⟩
  · obtain ⟨j, _, hlog⟩ := runDmaBenchmark_log e d fuel baseAddr memorySize numberOfAccesses
      chunkLength strideLength op w
    refine ⟨pollTrace e d
      (configure e d baseAddr memorySize numberOfAccesses chunkLength strideLength op w) j,
      ?_, pollTrace_reads e d _ j⟩
    rw [hlog, configure_log e d _ _ _ _ _ op w hb hm hn hc hs]
  · intro op2
    obtain ⟨j, _, hlog⟩ := runDmaBenchmark_log e d fuel baseAddr memorySize numberOfAccesses
      chunkLength strideLength op2 w
    rw [hlog, configure_log e d _ _ _ _ _ op2 w hb hm hn hc hs, List.append_assoc,
      List.drop_left]
    rfl
  · exact runDmaBenchmark_st e d fuel _ _ _ _ _ op w hb hm hn hc hs

/-- Witness of C2: a write benchmark on the mock device that completes on its
first poll; the log, and the stores (address, word) the mock device has
received. -/
theorem runDmaBenchmark_config_witness :
    ∃ reads : List Access,
      (runDmaBenchmark sampleEnv mockDevice 1 0x1122334455667788 0x99aabbccddeeff00 7 8 9
          memoryOp.WRITE (mockWorld [5, 0])).2.log =
        [Access.write ctrlAddr.DMA_BENCH 0x55667788 0x7f0000000060 0x55667788,
         Access.write ctrlAddr.DMA_BENCH 0x11223344 0x7f0000000060 0x11223344,
         Access.write ctrlAddr.DMA_BENCH 0xddeeff00 0x7f0000000060 0xddeeff00,
         Access.write ctrlAddr.DMA_BENCH 0x99aabbcc 0x7f0000000060 0x99aabbcc,
         Access.write ctrlAddr.DMA_BENCH 7 0x7f0000000060 7,
         Access.write ctrlAddr.DMA_BENCH 8 0x7f0000000060 8,
         Access.write ctrlAddr.DMA_BENCH 9 0x7f0000000060 9,
         Access.write ctrlAddr.DMA_BENCH 1 0x7f0000000060 1] ++ reads ∧
      (∀ a ∈ reads, ∃ r, a = regRead sampleEnv ctrlAddr.DMA_BENCH_CYCLES r) ∧
      (runDmaBenchmark sampleEnv mockDevice 1 0x1122334455667788 0x99aabbccddeeff00 7 8 9
          memoryOp.WRITE (mockWorld [5, 0])).2.st.stores =
        [(0x7f0000000060, 0x55667788), (0x7f0000000060, 0x11223344),
         (0x7f0000000060, 0xddeeff00), (0x7f0000000060, 0x99aabbcc),
         (0x7f0000000060, 7), (0x7f0000000060, 8), (0x7f0000000060, 9),
         (0x7f0000000060, 1)] := by
  obtain ⟨reads, h1, h2⟩ := (runDmaBenchmark_config sampleEnv mockDevice 1 0x1122334455667788
    0x99aabbccddeeff00 7 8 9 memoryOp.WRITE (mockWorld [5, 0]) (by decide) (by decide)
    (by decide) (by decide) (by decide)).1
  exact ⟨reads, h1, h2, by decide⟩

/-- C8. If `lower` reads 0 in each of the first `n` polls, whatever `upper`
reads, then after `n` polls `runDmaBenchmark` has not returned (it is still in
the loop, for this and for every smaller bound on the number of polls), and as
soon as one more poll is allowed it performs poll `n + 1`: its log then starts
with the configuration writes followed by the `2 * (n + 1)` reads of the first
`n + 1` polls. Conversely a value returned by `runDmaBenchmark`, under any
bound, has nonzero low 32 bits, and the bound was larger than `n`. -/
theorem poll_loop_unbounded {σ : Type} (e : Env) (d : Device σ)
    (baseAddr memorySize numberOfAccesses chunkLength strideLength : Nat) (op : memoryOp)
    (w : World σ) (n : Nat)
    (hzero : ∀ i < n, lowerAt e d
      (configure e d baseAddr memorySize numberOfAccesses chunkLength strideLength op w) i = 0) :
    runDmaBenchmark e d n baseAddr memorySize numberOfAccesses chunkLength strideLength op w =
      (Outcome.running, afterPolls e d n
        (configure e d baseAddr memorySize numberOfAccesses chunkLength strideLength op w)) ∧
    (∀ fuel, fuel ≤ n →
      (runDmaBenchmark e d fuel baseAddr memorySize numberOfAccesses chunkLength strideLength
        op w).1 = Outcome.running) ∧
    (∀ fuel, n < fuel → ∃ rest,
      (runDmaBenchmark e d fuel baseAddr memorySize numberOfAccesses chunkLength strideLength
        op w).2.log =
      (configure e d baseAddr memorySize numberOfAccesses chunkLength strideLength op w).log ++
        pollTrace e d
          (configure e d baseAddr memorySize numberOfAccesses chunkLength strideLength op w)
          (n + 1) ++ rest) ∧
    (∀ fuel r,
      (runDmaBenchmark e d fuel baseAddr memorySize numberOfAccesses chunkLength strideLength
        op w).1 = Outcome.returned r → r % 2 ^ 32 ≠ 0 ∧ n < fuel) := by
  have hrun : ∀ fuel, fuel ≤ n →
      runDmaBenchmark e d fuel baseAddr memorySize numberOfAccesses chunkLength strideLength
        op w =
      (Outcome.running, afterPolls e d fuel
        (configure e d baseAddr memorySize numberOfAccesses chunkLength strideLength op
          w)) := by
    intro fuel hf
    have h := pollLoop_zeros e d fuel 0
      (configure e d baseAddr memorySize numberOfAccesses chunkLength strideLength op w)
      (fun i hi => hzero i (Nat.lt_of_lt_of_le hi hf))
    unfold runDmaBenchmark
    rw [Nat.add_zero] at h
    rw [h]
    rfl
  refine ⟨hrun n (Nat.le_refl n), fun fuel hf => by rw [hrun fuel hf], ?_, ?_⟩
  · intro fuel hf
    obtain ⟨m, rfl⟩ : ∃ m, fuel = n + (m + 1) := ⟨fuel - n - 1, by omega⟩
    obtain ⟨j, _, hw, _, hpos⟩ := pollLoop_world e d (m + 1) (afterPolls e d n
      (configure e d baseAddr memorySize numberOfAccesses chunkLength strideLength op w))
    obtain ⟨t, rfl⟩ : ∃ t, j = 1 + t := ⟨j - 1, by have := hpos (Nat.succ_pos m); omega⟩
    obtain ⟨rest, hrest⟩ := pollTrace_extend e d
      (configure e d baseAddr memorySize numberOfAccesses chunkLength strideLength op w)
      (n + 1) t
    refine ⟨rest, ?_⟩
    unfold runDmaBenchmark
    rw [pollLoop_zeros e d n (m + 1) _ hzero, hw, afterPolls_add, afterPolls_log,
      ← Nat.add_assoc, hrest, List.append_assoc]
  · intro fuel r hr
    refine ⟨pollLoop_low_ne_zero e d fuel _ r hr, ?_⟩
    by_contra hle
    rw [hrun fuel (Nat.le_of_not_lt hle)] at hr
    cases hr

/-- Witness of C8: the mock device with an empty script reads 0 for ever; after
three polls the benchmark is still running. -/
theorem poll_loop_unbounded_witness :
    runDmaBenchmark sampleEnv mockDevice 3 0 4096 16 64 0 memoryOp.WRITE (mockWorld []) =
      (Outcome.running, afterPolls sampleEnv mockDevice 3
        (configure sampleEnv mockDevice 0 4096 16 64 0 memoryOp.WRITE (mockWorld []))) ∧
    (afterPolls sampleEnv mockDevice 3
        (configure sampleEnv mockDevice 0 4096 16 64 0 memoryOp.WRITE (mockWorld []))).log.length
      = 8 + 2 * 3 :=
  ⟨(poll_loop_unbounded sampleEnv mockDevice 0 4096 16 64 0 memoryOp.WRITE (mockWorld []) 3
      (by decide)).1, by decide⟩

/-- C4, evaluated on a device whose first poll reads `lower = 5`, `upper = 0`:
`runDmaBenchmark` returns 5 for either direction and either stride, while each
of the four wrappers, called with the same arguments, makes the same register
accesses and then reaches its closing brace without a `return` statement, so
that it hands no cycle count to its caller. -/
theorem wrappers_drop_cycle_count :
    (runDmaBenchmark sampleEnv mockDevice 1 0 4096 16 64 0 memoryOp.WRITE
        (mockWorld [5, 0])).1 = Outcome.returned 5 ∧
    (runSeqWriteBenchmark sampleEnv mockDevice 1 0 4096 16 64 (mockWorld [5, 0])).1 =
      Outcome.noReturn ∧
    (runDmaBenchmark sampleEnv mockDevice 1 0 4096 16 64 0 memoryOp.READ
        (mockWorld [5, 0])).1 = Outcome.returned 5 ∧
    (runSeqReadBenchmark sampleEnv mockDevice 1 0 4096 16 64 (mockWorld [5, 0])).1 =
      Outcome.noReturn ∧
    (runDmaBenchmark sampleEnv mockDevice 1 0 4096 16 64 128 memoryOp.WRITE
        (mockWorld [5, 0])).1 = Outcome.returned 5 ∧
    (runRandomWriteBenchmark sampleEnv mockDevice 1 0 4096 16 64 128 (mockWorld [5, 0])).1 =
      Outcome.noReturn ∧
    (runDmaBenchmark sampleEnv mockDevice 1 0 4096 16 64 128 memoryOp.READ
        (mockWorld [5, 0])).1 = Outcome.returned 5 ∧
    (runRandomReadBenchmark sampleEnv mockDevice 1 0 4096 16 64 128 (mockWorld [5, 0])).1 =
      Outcome.noReturn ∧
    (runSeqWriteBenchmark sampleEnv mockDevice 1 0 4096 16 64 (mockWorld [5, 0])).2 =
      (runDmaBenchmark sampleEnv mockDevice 1 0 4096 16 64 0 memoryOp.WRITE
        (mockWorld [5, 0])).2 := by
  decide

/-- C5. For 64-bit `baseAddr` and `memorySize` and 32-bit `numberOfAccesses`,
`chunkLength` and `strideLength`, under every bound on the number of polls: the
words `runSeqWriteBenchmark` and `runSeqReadBenchmark` write are the eight
configuration words with 0 in the seventh place, the words
`runRandomWriteBenchmark` and `runRandomReadBenchmark` write are the eight
configuration words with `strideLength` in the seventh place; a sequential
call is the random call of the same direction with `strideLength = 0`; and the
words of a sequential and of a random call of the same direction agree at every
position but the seventh. The device itself receives these eight words, in this
order, as eight stores at the address of DMA_BENCH (the seventh word stored is
`htols(0)` in a sequential call and `htols(strideLength)` in a random call),
and after them only polls, with no further store. -/
theorem stride_word {σ : Type} (e : Env) (d : Device σ) (fuel : Nat)
    (baseAddr memorySize numberOfAccesses chunkLength strideLength : Nat) (w : World σ)
    (hb : baseAddr < 2 ^ 64) (hm : memorySize < 2 ^ 64) (hn : numberOfAccesses < 2 ^ 32)
    (hc : chunkLength < 2 ^ 32) (hs : strideLength < 2 ^ 32) :
    writtenValues (runSeqWriteBenchmark e d fuel baseAddr memorySize numberOfAccesses
        chunkLength w).2.log =
      writtenValues w.log ++
        [baseAddr % 2 ^ 32, baseAddr >>> 32, memorySize % 2 ^ 32, memorySize >>> 32,
         numberOfAccesses, chunkLength, 0, e.memoryOpVal memoryOp.WRITE % 2 ^ 32] ∧
    writtenValues (runSeqReadBenchmark e d fuel baseAddr memorySize numberOfAccesses
        chunkLength w).2.log =
      writtenValues w.log ++
        [baseAddr % 2 ^ 32, baseAddr >>> 32, memorySize % 2 ^ 32, memorySize >>> 32,
         numberOfAccesses, chunkLength, 0, e.memoryOpVal memoryOp.READ % 2 ^ 32] ∧
    writtenValues (runRandomWriteBenchmark e d fuel baseAddr memorySize numberOfAccesses
        chunkLength strideLength w).2.log =
      writtenValues w.log ++
        [baseAddr % 2 ^ 32, baseAddr >>> 32, memorySize % 2 ^ 32, memorySize >>> 32,
         numberOfAccesses, chunkLength, strideLength, e.memoryOpVal memoryOp.WRITE % 2 ^ 32] ∧
    writtenValues (runRandomReadBenchmark e d fuel baseAddr memorySize numberOfAccesses
        chunkLength strideLength w).2.log =
      writtenValues w.log ++
        [baseAddr % 2 ^ 32, baseAddr >>> 32, memorySize % 2 ^ 32, memorySize >>> 32,
         numberOfAccesses, chunkLength, strideLength, e.memoryOpVal memoryOp.READ % 2 ^ 32] ∧
    runSeqWriteBenchmark e d fuel baseAddr memorySize numberOfAccesses chunkLength w =
      runRandomWriteBenchmark e d fuel baseAddr memorySize numberOfAccesses chunkLength 0 w ∧
    runSeqReadBenchmark e d fuel baseAddr memorySize numberOfAccesses chunkLength w =
      runRandomReadBenchmark e d fuel baseAddr memorySize numberOfAccesses chunkLength 0 w ∧
    (∀ i : Nat, i ≠ (writtenValues w.log).length + 6 →
      (writtenValues (runSeqWriteBenchmark e d fuel baseAddr memorySize numberOfAccesses
          chunkLength w).2.log)[i]? =
        (writtenValues (runRandomWriteBenchmark e d fuel baseAddr memorySize numberOfAccesses
          chunkLength strideLength w).2.log)[i]?) ∧
    (∀ i : Nat, i ≠ (writtenValues w.log).length + 6 →
      (writtenValues (runSeqReadBenchmark e d fuel baseAddr memorySize numberOfAccesses
          chunkLength w).2.log)[i]? =
        (writtenValues (runRandomReadBenchmark e d fuel baseAddr memorySize numberOfAccesses
          chunkLength strideLength w).2.log)[i]?) ∧
    (∃ j, j ≤ fuel ∧
      (runSeqWriteBenchmark e d fuel baseAddr memorySize numberOfAccesses chunkLength w).2.st =
      (devicePoll e d)^[j]
        (storeWords e d ctrlAddr.DMA_BENCH
          [baseAddr % 2 ^ 32, baseAddr >>> 32, memorySize % 2 ^ 32, memorySize >>> 32,
           numberOfAccesses, chunkLength, 0, e.memoryOpVal memoryOp.WRITE % 2 ^ 32] w.st)) ∧
    (∃ j, j ≤ fuel ∧
      (runSeqReadBenchmark e d fuel baseAddr memorySize numberOfAccesses chunkLength w).2.st =
      (devicePoll e d)^[j]
        (storeWords e d ctrlAddr.DMA_BENCH
          [baseAddr % 2 ^ 32, baseAddr >>> 32, memorySize % 2 ^ 32, memorySize >>> 32,
           numberOfAccesses, chunkLength, 0, e.memoryOpVal memoryOp.READ % 2 ^ 32] w.st)) ∧
    (∃ j, j ≤ fuel ∧
      (runRandomWriteBenchmark e d fuel baseAddr memorySize numberOfAccesses chunkLength
        strideLength w).2.st =
      (devicePoll e d)^[j]
        (storeWords e d ctrlAddr.DMA_BENCH
          [baseAddr % 2 ^ 32, baseAddr >>> 32, memorySize % 2 ^ 32, memorySize >>> 32,
           numberOfAccesses, chunkLength, strideLength,
           e.memoryOpVal memoryOp.WRITE % 2 ^ 32] w.st)) ∧
    (∃ j, j ≤ fuel ∧
      (runRandomReadBenchmark e d fuel baseAddr memorySize numberOfAccesses chunkLength
        strideLength w).2.st =
      (devicePoll e d)^[j]
        (storeWords e d ctrlAddr.DMA_BENCH
          [baseAddr % 2 ^ 32, baseAddr >>> 32, memorySize % 2 ^ 32, memorySize >>> 32,
           numberOfAccesses, chunkLength, strideLength,
           e.memoryOpVal memoryOp.READ % 2 ^ 32] w.st)) := by
  have h0 : (0 : Nat) < 2 ^ 32 := by norm_num
  have sw := wrapper_written e d fuel baseAddr memorySize numberOfAccesses chunkLength 0
    memoryOp.WRITE w hb hm hn hc h0
  have sr := wrapper_written e d fuel baseAddr memorySize numberOfAccesses chunkLength 0
    memoryOp.READ w hb hm hn hc h0
  have rw1 := wrapper_written e d fuel baseAddr memorySize numberOfAccesses chunkLength
    strideLength memoryOp.WRITE w hb hm hn hc hs
  have rr := wrapper_written e d fuel baseAddr memorySize numberOfAccesses chunkLength
    strideLength memoryOp.READ w hb hm hn hc hs
  refine ⟨sw, sr, rw1, rr, rfl, rfl, ?_, ?_,
    wrapper_st e d fuel baseAddr memorySize numberOfAccesses chunkLength 0 memoryOp.WRITE w
      hb hm hn hc h0,
    wrapper_st e d fuel baseAddr memorySize numberOfAccesses chunkLength 0 memoryOp.READ w
      hb hm hn hc h0,
    wrapper_st e d fuel baseAddr memorySize numberOfAccesses chunkLength strideLength
      memoryOp.WRITE w hb hm hn hc hs,
    wrapper_st e d fuel baseAddr memorySize numberOfAccesses chunkLength strideLength
      memoryOp.READ w hb hm hn hc hs⟩
  · intro i hi
    unfold runSeqWriteBenchmark runRandomWriteBenchmark
    rw [sw, rw1]
    exact nth_differ_seventh _ _ _ _ _ _ _ _ _ _ i hi
  · intro i hi
    unfold runSeqReadBenchmark runRandomReadBenchmark
    rw [sr, rr]
    exact nth_differ_seventh _ _ _ _ _ _ _ _ _ _ i hi

/-- Witness of C5: the words written by a sequential and by a random write
benchmark (stride 128) on the mock device, in the log and as the stores
(address, word) the mock device has received. -/
theorem stride_word_witness :
    writtenValues (runSeqWriteBenchmark sampleEnv mockDevice 1 0x1122334455667788 4096 16 64
        (mockWorld [5, 0])).2.log =
      [0x55667788, 0x11223344, 4096, 0, 16, 64, 0, 1] ∧
    writtenValues (runRandomWriteBenchmark sampleEnv mockDevice 1 0x1122334455667788 4096 16 64
        128 (mockWorld [5, 0])).2.log =
      [0x55667788, 0x11223344, 4096, 0, 16, 64, 128, 1] ∧
    (runSeqWriteBenchmark sampleEnv mockDevice 1 0x1122334455667788 4096 16 64
        (mockWorld [5, 0])).2.st.stores =
      [(0x7f0000000060, 0x55667788), (0x7f0000000060, 0x11223344), (0x7f0000000060, 4096),
       (0x7f0000000060, 0), (0x7f0000000060, 16), (0x7f0000000060, 64), (0x7f0000000060, 0),
       (0x7f0000000060, 1)] ∧
    (runRandomWriteBenchmark sampleEnv mockDevice 1 0x1122334455667788 4096 16 64 128
        (mockWorld [5, 0])).2.st.stores =
      [(0x7f0000000060, 0x55667788), (0x7f0000000060, 0x11223344), (0x7f0000000060, 4096),
       (0x7f0000000060, 0), (0x7f0000000060, 16), (0x7f0000000060, 64),
       (0x7f0000000060, 128), (0x7f0000000060, 1)] := by
  have h := stride_word sampleEnv mockDevice 1 0x1122334455667788 4096 16 64 128
    (mockWorld [5, 0]) (by decide) (by decide) (by decide) (by decide) (by decide)
  exact ⟨h.1.trans (by decide), h.2.2.1.trans (by decide), by decide, by decide⟩

end FpgaController
